import Mathlib

/-!
Verification of the OntoRalph repository against its specification.

The repository ships one executable source file,
`src/ontoralph/web/static/js/api.js` (the browser API client plus the
IndexedDB storage wrapper).  The checklist evaluator and loop controller
described by the specification exist in the repository only as plans and
documentation, so the definitions for those parts are modelled from the
words of the specification and are marked as such in their doc comments.
Everything else below is a shallow embedding of `api.js`.
-/

namespace OntoRalph

/-! ## Data model (spec section 3, IMPLEMENTATION_PLAN phase 2)

`CheckResult` carries a stable code, a name, a passed flag, evidence text
and a severity drawn from the four rule families. -/

inductive Severity where
  | required
  | ice_required
  | quality
  | red_flag
deriving DecidableEq

structure CheckResult where
  code : String
  name : String
  passed : Bool
  evidence : String
  severity : Severity
deriving DecidableEq

inductive Status where
  | pass
  | fail
  | iterate
deriving DecidableEq

/-- Modelled from the spec: a Core (`required`) or Red-flag CheckResult that
did not pass.  The first clause of `determine_status` tests for these. -/
def isFatalFailure (r : CheckResult) : Bool :=
  !r.passed && (r.severity == Severity.required || r.severity == Severity.red_flag)

/-- Modelled from the spec: all Core checks pass and all applicable ICE
checks pass; ICE checks are ignored when `is_ice` is false. -/
def coreAndIcePass (results : List CheckResult) (is_ice : Bool) : Bool :=
  results.all fun r =>
    match r.severity with
    | Severity.required => r.passed
    | Severity.ice_required => !is_ice || r.passed
    | Severity.quality => true
    | Severity.red_flag => true

/-- Modelled from the spec (section 4.1, the evaluator itself is not in the
shipped sources): `fail` if any Core check fails or any Red-flag check
fails; else `pass` if all Core checks pass and all applicable ICE checks
pass; else `iterate`. -/
def determine_status (results : List CheckResult) (is_ice : Bool) : Status :=
  if results.any isFatalFailure then Status.fail
  else if coreAndIcePass results is_ice then Status.pass
  else Status.iterate

/-! ## SSE event subscriptions of the browser client (`api.js`) -/

/-- The event types `runStream` registers listeners for
(`api.js` lines 215-224). -/
def runStreamEventTypes : List String :=
  ["iteration_start", "generate", "critique", "refine", "verify",
   "iteration_end", "complete", "error"]

/-- The event types `streamBatchProgress` registers listeners for
(`api.js` lines 332-340). -/
def batchStreamEventTypes : List String :=
  ["status", "progress", "class_start", "class_complete", "class_error",
   "job_complete", "error"]

/-- The per-phase event names the specification says the controller emits
(spec section 4.2); kept separate from the list read off the source so the
two can be compared. -/
def specPhaseEventNames : List String :=
  ["iteration_start", "generate", "critique", "refine", "verify",
   "complete", "error"]

/-- The batch-level event names the specification lists (spec section 6);
kept separate from the list read off the source so the two can be
compared. -/
def specBatchEventNames : List String :=
  ["job_start", "class_start", "class_iteration", "class_complete",
   "job_complete", "error"]

/-! ## Theorems for claims C1, C3, C4 -/

/-- C1: `determine_status` returns `fail` whenever any red-flag CheckResult
is failing, irrespective of the other results, and it returns `fail` if
any Core (`required`) check fails. -/
theorem determine_status_fail_precedence :
    ∀ (results : List CheckResult) (is_ice : Bool),
      ((∃ r ∈ results, r.severity = Severity.red_flag ∧ r.passed = false) →
        determine_status results is_ice = Status.fail) ∧
      ((∃ r ∈ results, r.severity = Severity.required ∧ r.passed = false) →
        determine_status results is_ice = Status.fail) := by
  intro results is_ice
  constructor
  · rintro ⟨r, hr, hsev, hpass⟩
    have hany : results.any isFatalFailure = true := by
      rw [List.any_eq_true]
      exact ⟨r, hr, by simp [isFatalFailure, hsev, hpass]⟩
    simp [determine_status, hany]
  · rintro ⟨r, hr, hsev, hpass⟩
    have hany : results.any isFatalFailure = true := by
      rw [List.any_eq_true]
      exact ⟨r, hr, by simp [isFatalFailure, hsev, hpass]⟩
    simp [determine_status, hany]

/-- Witness for C1: a concrete result list with one failing red flag and
all Core checks passing is still scored `fail`, and a list with a failing
Core check is scored `fail`. -/
theorem determine_status_fail_precedence_witness :
    determine_status
      [⟨"C1", "circularity", true, "", Severity.required⟩,
       ⟨"Q1", "specificity", true, "", Severity.quality⟩,
       ⟨"R2", "represents", false, "represents", Severity.red_flag⟩] false
      = Status.fail ∧
    determine_status
      [⟨"C2", "genus", false, "", Severity.required⟩] false = Status.fail := by
  constructor
  · exact (determine_status_fail_precedence _ false).1
      ⟨⟨"R2", "represents", false, "represents", Severity.red_flag⟩,
        by decide, rfl, rfl⟩
  · exact (determine_status_fail_precedence _ false).2
      ⟨⟨"C2", "genus", false, "", Severity.required⟩, by decide, rfl, rfl⟩

/-- C3 counterexample: the run-stream client also subscribes to
`iteration_end`, which is not among the seven per-phase event names of the
specification, so the two sets are not equal. -/
theorem runStream_event_set_ne_spec :
    "iteration_end" ∈ runStreamEventTypes ∧
    "iteration_end" ∉ specPhaseEventNames := by
  decide

/-- C3 amended: the set of SSE event types the run-stream client
subscribes to is exactly the seven per-phase names of the specification
together with `iteration_end`, with one listener per event type (no
duplicates). -/
theorem runStream_event_set_characterization :
    (∀ s : String,
      s ∈ runStreamEventTypes ↔ (s ∈ specPhaseEventNames ∨ s = "iteration_end")) ∧
    runStreamEventTypes.Nodup := by
  constructor
  · intro s
    simp only [runStreamEventTypes, specPhaseEventNames, List.mem_cons,
      List.not_mem_nil, or_false]
    tauto
  · decide

/-- C4 counterexample: the batch stream client does not subscribe to
`job_start` (nor `class_iteration`), and it does subscribe to `status`,
which the claimed set does not contain; the two sets are not equal. -/
theorem batchStream_event_set_ne_spec :
    "job_start" ∈ specBatchEventNames ∧
    "job_start" ∉ batchStreamEventTypes ∧
    "status" ∈ batchStreamEventTypes ∧
    "status" ∉ specBatchEventNames := by
  decide

/-- C4 amended: the set of SSE event types the batch stream client
subscribes to is exactly `status, progress, class_start, class_complete,
class_error, job_complete, error`, with one listener per event type. -/
theorem batchStream_event_set_characterization :
    (∀ s : String,
      s ∈ batchStreamEventTypes ↔
        (s = "status" ∨ s = "progress" ∨ s = "class_start" ∨
         s = "class_complete" ∨ s = "class_error" ∨ s = "job_complete" ∨
         s = "error")) ∧
    batchStreamEventTypes.Nodup := by
  constructor
  · intro s
    simp [batchStreamEventTypes]
  · decide

/-! ## Word-boundary matching (claims C2 and C8)

The circularity check C1 and the red-flag detector are described by the
specification as case-insensitive, word-boundary-aware matching.  The
checker code itself is not in the shipped sources, so the matcher below is
modelled from the words of the specification. -/

/-- Modelled from the spec: a word character for word-boundary purposes
(letters, digits, underscore, as in a regex word boundary). -/
def isWordChar (c : Char) : Bool :=
  c.isAlphanum || c == '_'

/-- Lower-cased character sequence of a string, used for case-insensitive
matching. -/
def lowerChars (s : String) : List Char :=
  s.data.map Char.toLower

/-- The character immediately before a candidate match position is a word
boundary: either there is no such character or it is not a word
character. -/
def prevBoundary (prev : Option Char) : Bool :=
  match prev with
  | none => true
  | some c => !(isWordChar c)

/-- The text after a candidate match ends at a word boundary: it is empty
or starts with a non-word character. -/
def afterBoundary (post : List Char) : Bool :=
  match post with
  | [] => true
  | c :: _ => !(isWordChar c)

/-- Boundary condition before a match that sits after the prefix `pre`,
where `prev` is the character consumed just before `pre` (if any). -/
def preBoundary (prev : Option Char) (pre : List Char) : Bool :=
  match pre.getLast? with
  | some c => !(isWordChar c)
  | none => prevBoundary prev

/-- Modelled from the spec: scan `text` for a whole-word occurrence of
`pat`; `prev` is the character just before the current position. -/
def wholeWordAux (pat : List Char) : Option Char → List Char → Bool
  | prev, [] =>
      pat.isPrefixOf ([] : List Char) && prevBoundary prev &&
        afterBoundary (List.drop pat.length [])
  | prev, c :: rest =>
      (pat.isPrefixOf (c :: rest) && prevBoundary prev &&
        afterBoundary (List.drop pat.length (c :: rest)))
      || wholeWordAux pat (some c) rest

/-- `pat` occurs in `text` as a whole word (both ends at word
boundaries). -/
def hasWholeWord (pat text : List Char) : Bool :=
  wholeWordAux pat none text

/-- Plain substring search, for stating when the term is absent
altogether. -/
def containsSub (pat : List Char) : List Char → Bool
  | [] => pat.isPrefixOf ([] : List Char)
  | c :: rest => pat.isPrefixOf (c :: rest) || containsSub pat rest

/-- Declarative counterpart of `wholeWordAux`: `text` splits as
`pre ++ pat ++ post` with word boundaries on both sides of `pat`. -/
def WholeWordOccAux (pat : List Char) (prev : Option Char) (text : List Char) : Prop :=
  ∃ pre post, text = pre ++ pat ++ post ∧
    preBoundary prev pre = true ∧ afterBoundary post = true

/-- Declarative whole-word occurrence of `pat` in `text`. -/
def WholeWordOcc (pat text : List Char) : Prop :=
  WholeWordOccAux pat none text

/-- Modelled from the spec: the C1 circularity check passes exactly when
the defined term has no case-insensitive whole-word occurrence inside the
definition. -/
def checkC1passed (definition term : String) : Bool :=
  !(hasWholeWord (lowerChars term) (lowerChars definition))

/-- Modelled from the spec: the R2 red-flag check (banned verb
`represents`) passes exactly when `represents` has no case-insensitive
whole-word occurrence inside the definition. -/
def checkR2passed (definition : String) : Bool :=
  !(hasWholeWord ("represents".data) (lowerChars definition))

theorem preBoundary_cons (prev : Option Char) (c : Char) (pre : List Char) :
    preBoundary prev (c :: pre) = preBoundary (some c) pre := by
  cases pre with
  | nil => rfl
  | cons d l => simp [preBoundary, List.getLast?]

theorem wholeWordAux_iff (pat : List Char) (hp : pat ≠ []) :
    ∀ (text : List Char) (prev : Option Char),
      wholeWordAux pat prev text = true ↔ WholeWordOccAux pat prev text := by
  intro text
  induction text with
  | nil =>
      intro prev
      constructor
      · intro h
        exfalso
        cases pat with
        | nil => exact hp rfl
        | cons p ps => simp [wholeWordAux, List.isPrefixOf] at h
      · rintro ⟨pre, post, heq, -, -⟩
        exfalso
        cases pat with
        | nil => exact hp rfl
        | cons p ps =>
            have := congrArg List.length heq
            simp [List.length_append] at this
            omega
  | cons c rest ih =>
      intro prev
      constructor
      · intro h
        simp only [wholeWordAux, Bool.or_eq_true, Bool.and_eq_true] at h
        rcases h with ⟨⟨hpref, hprev⟩, hafter⟩ | h
        · rcases List.isPrefixOf_iff_prefix.mp hpref with ⟨post, hpost⟩
          refine ⟨[], post, by simpa using hpost.symm, ?_, ?_⟩
          · simpa [preBoundary] using hprev
          · have : List.drop pat.length (c :: rest) = post := by
              rw [← hpost]
              exact List.drop_left pat post
            simpa [this] using hafter
        · rcases (ih (some c)).mp h with ⟨pre, post, heq, hpre, hafter⟩
          exact ⟨c :: pre, post, by simp [heq],
            by simpa [preBoundary_cons] using hpre, hafter⟩
      · rintro ⟨pre, post, heq, hpre, hafter⟩
        simp only [wholeWordAux, Bool.or_eq_true, Bool.and_eq_true]
        cases pre with
        | nil =>
            left
            simp only [List.nil_append] at heq
            refine ⟨⟨List.isPrefixOf_iff_prefix.mpr ⟨post, heq.symm⟩, ?_⟩, ?_⟩
            · simpa [preBoundary] using hpre
            · have : List.drop pat.length (c :: rest) = post := by
                rw [heq]
                exact List.drop_left pat post
              simpa [this] using hafter
        | cons d pre' =>
            right
            have hd : d = c := by
              have := congrArg (List.head? ·) heq
              simpa using this.symm
            subst hd
            have hrest : rest = pre' ++ pat ++ post := by
              have := congrArg (List.tail ·) heq
              simpa using this
            exact (ih (some d)).mpr
              ⟨pre', post, hrest, by simpa [preBoundary_cons] using hpre, hafter⟩

theorem hasWholeWord_iff (pat text : List Char) (hp : pat ≠ []) :
    hasWholeWord pat text = true ↔ WholeWordOcc pat text :=
  wholeWordAux_iff pat hp text none

theorem wholeWordAux_containsSub (pat : List Char) :
    ∀ (text : List Char) (prev : Option Char),
      wholeWordAux pat prev text = true → containsSub pat text = true := by
  intro text
  induction text with
  | nil =>
      intro prev h
      simp only [wholeWordAux, Bool.and_eq_true] at h
      simpa [containsSub] using h.1.1
  | cons c rest ih =>
      intro prev h
      simp only [wholeWordAux, Bool.or_eq_true, Bool.and_eq_true] at h
      rcases h with ⟨⟨hpref, -⟩, -⟩ | h
      · simp [containsSub, hpref]
      · simp [containsSub, ih (some c) h]

/-- C2: if the definition contains the defined term as a whole word
(case-insensitively), the C1 circularity check fails; if the term does
not occur in the definition at all (case-insensitive substring absence),
C1 passes. -/
theorem checkC1_circularity (definition term : String) (hterm : term ≠ "") :
    (WholeWordOcc (lowerChars term) (lowerChars definition) →
      checkC1passed definition term = false) ∧
    (containsSub (lowerChars term) (lowerChars definition) = false →
      checkC1passed definition term = true) := by
  have hne : lowerChars term ≠ [] := by
    intro h
    apply hterm
    apply String.ext
    have hlen := congrArg List.length h
    simp only [lowerChars, List.length_map, List.length_nil] at hlen
    exact List.eq_nil_of_length_eq_zero hlen
  constructor
  · intro hocc
    have := (hasWholeWord_iff (lowerChars term) (lowerChars definition) hne).mpr hocc
    simp [checkC1passed, this]
  · intro habs
    have : hasWholeWord (lowerChars term) (lowerChars definition) = false := by
      by_contra h
      rw [Bool.not_eq_false] at h
      have := wholeWordAux_containsSub (lowerChars term) (lowerChars definition) none h
      rw [habs] at this
      exact Bool.false_ne_true this
    simp [checkC1passed, this]

/-- Witness for C2 at the examples of the specification: with term
`Verb Phrase`, the definition `A verb phrase is a phrase with a verb`
fails C1, and the definition `A phrase with a verb` passes C1. -/
theorem checkC1_circularity_witness :
    checkC1passed "A verb phrase is a phrase with a verb" "Verb Phrase" = false ∧
    checkC1passed "A phrase with a verb" "Verb Phrase" = true := by
  constructor
  · exact (checkC1_circularity "A verb phrase is a phrase with a verb" "Verb Phrase"
      (by decide)).1
      ⟨"a ".data, " is a phrase with a verb".data, by decide, by decide, by decide⟩
  · exact (checkC1_circularity "A phrase with a verb" "Verb Phrase" (by decide)).2
      (by decide)

/-- C8 counterexample: `It misrepresents meaning` contains `represents`
as a substring, yet the word-boundary-aware R2 check passes, so R2 does
not fail for every definition containing `represents`. -/
theorem checkR2_substring_not_sufficient :
    containsSub ("represents".data) (lowerChars "It misrepresents meaning") = true ∧
    checkR2passed "It misrepresents meaning" = true := by
  decide

/-- C8 amended: the R2 red-flag check fails exactly on definitions that
contain `represents` as a whole word (case-insensitively), so punctuation
or position cannot mask an occurrence, while occurrences embedded inside
larger words such as `misrepresents` do not trigger R2. -/
theorem checkR2_whole_word :
    ∀ definition : String,
      checkR2passed definition = false ↔
        WholeWordOcc ("represents".data) (lowerChars definition) := by
  intro definition
  have h := hasWholeWord_iff ("represents".data) (lowerChars definition) (by decide)
  constructor
  · intro hfail
    apply h.mp
    by_contra hh
    rw [Bool.not_eq_true] at hh
    simp [checkR2passed, hh] at hfail
  · intro hocc
    simp [checkR2passed, h.mpr hocc]

/-! ## Stream settlement (`runStream` and `streamBatchProgress` in `api.js`)

An SSE event is modelled by its type name, whether `JSON.parse` of its
data succeeds (a failing parse is logged and skipped by the handler), and
the parsed payload fields the client reads.  JavaScript `x || d` reads on
possibly-missing fields are modelled explicitly: a missing or empty
string falls back to the default, a missing boolean to `false`, and a
missing or zero number to `null`. -/

structure ApiError where
  message : String
  code : String
  retryable : Bool
  retryAfter : Option Nat
deriving DecidableEq

structure Payload where
  status : Option String
  message : Option String
  code : Option String
  retryable : Option Bool
  retry_after : Option Nat
deriving DecidableEq

structure SseEvent where
  type : String
  parses : Bool
  data : Payload
deriving DecidableEq

/-- JavaScript `v || d` for a possibly-missing string field: empty and
missing strings are falsy. -/
def jsOrStr (v : Option String) (d : String) : String :=
  match v with
  | none => d
  | some s => if s = "" then d else s

/-- JavaScript `v || null` for a possibly-missing numeric field: missing
and zero are falsy and give `null`. -/
def jsOrNullNat (v : Option Nat) : Option Nat :=
  match v with
  | none => none
  | some n => if n = 0 then none else some n

/-- The ApiError `runStream` rejects with on an `error` event
(`api.js` lines 237-242): message, code, retryable and retry_after are
taken from the event payload with `||` defaults. -/
def runStreamErrorToApiError (d : Payload) : ApiError :=
  { message := jsOrStr d.message "Stream error"
    code := jsOrStr d.code "STREAM_ERROR"
    retryable := d.retryable.getD false
    retryAfter := jsOrNullNat d.retry_after }

/-- The ApiError `streamBatchProgress` rejects with on an `error` event
(`api.js` lines 353-357): message and code are taken from the payload,
but `retryable` is passed as the literal `false` and the `retryAfter`
constructor parameter is left at its default `null`. -/
def batchStreamErrorToApiError (d : Payload) : ApiError :=
  { message := jsOrStr d.message "Stream error"
    code := jsOrStr d.code "STREAM_ERROR"
    retryable := false
    retryAfter := none }

/-- The ApiError used by both streams when the EventSource connection is
lost. -/
def connectionLostError : ApiError :=
  { message := "Connection lost", code := "CONNECTION_ERROR",
    retryable := true, retryAfter := none }

inductive Settlement where
  | resolved (d : Payload)
  | rejected (e : ApiError)
deriving DecidableEq

/-- Per-event behaviour of the `runStream` listeners: only subscribed
event types are handled, a failing JSON parse is skipped, a `complete`
event resolves with its payload, an `error` event rejects with the
payload converted to an ApiError, and every other event only notifies the
`onEvent` callback. -/
def runStreamHandle (e : SseEvent) : Option Settlement :=
  if runStreamEventTypes.contains e.type && e.parses then
    if e.type = "complete" then some (Settlement.resolved e.data)
    else if e.type = "error" then
      some (Settlement.rejected (runStreamErrorToApiError e.data))
    else none
  else none

/-- Per-event behaviour of the `streamBatchProgress` listeners:
`job_complete` resolves, `error` rejects, everything else only notifies
the callback. -/
def batchStreamHandle (e : SseEvent) : Option Settlement :=
  if batchStreamEventTypes.contains e.type && e.parses then
    if e.type = "job_complete" then some (Settlement.resolved e.data)
    else if e.type = "error" then
      some (Settlement.rejected (batchStreamErrorToApiError e.data))
    else none
  else none

/-- The settlement of a stream promise over a sequence of received
events, followed (when `lost` is true) by a connection error: the first
event that settles wins, and a connection loss after unsettling events
rejects with `connectionLostError`. -/
def settleStream (handle : SseEvent → Option Settlement) :
    List SseEvent → Bool → Option Settlement
  | [], lost =>
      if lost then some (Settlement.rejected connectionLostError) else none
  | e :: rest, lost =>
      match handle e with
      | some s => some s
      | none => settleStream handle rest lost

/-- Settlement of a `runStream` promise. -/
def settleRunStream (events : List SseEvent) (lost : Bool) : Option Settlement :=
  settleStream runStreamHandle events lost

/-- Settlement of a `streamBatchProgress` promise. -/
def settleBatchStream (events : List SseEvent) (lost : Bool) : Option Settlement :=
  settleStream batchStreamHandle events lost

theorem settleStream_append_settled (handle : SseEvent → Option Settlement)
    (pre : List SseEvent) (e : SseEvent) (rest : List SseEvent) (lost : Bool)
    (hpre : ∀ x ∈ pre, handle x = none) (s : Settlement)
    (he : handle e = some s) :
    settleStream handle (pre ++ e :: rest) lost = some s := by
  induction pre with
  | nil => simp [settleStream, he]
  | cons p ps ih =>
      have hp : handle p = none := hpre p (by simp)
      simp only [List.cons_append, settleStream, hp]
      exact ih fun x hx => hpre x (by simp [hx])

/-- C6: a `complete` event on the run stream resolves the promise with
the payload of the event regardless of its `status` field (in particular
for a terminal `fail` result), while a rejection can arise only from an
`error` event or from connection loss. -/
theorem runStream_complete_resolves_error_rejects :
    (∀ (pre : List SseEvent) (e : SseEvent) (rest : List SseEvent) (lost : Bool),
      (∀ x ∈ pre, runStreamHandle x = none) → e.type = "complete" →
      e.parses = true →
      settleRunStream (pre ++ e :: rest) lost = some (Settlement.resolved e.data)) ∧
    (∀ (events : List SseEvent) (lost : Bool) (err : ApiError),
      settleRunStream events lost = some (Settlement.rejected err) →
      (∃ e ∈ events, e.type = "error") ∨ lost = true) := by
  constructor
  · intro pre e rest lost hpre htype hparses
    apply settleStream_append_settled runStreamHandle pre e rest lost hpre
    simp [runStreamHandle, htype, hparses, runStreamEventTypes]
  · intro events
    induction events with
    | nil =>
        intro lost err h
        cases lost with
        | false => simp [settleRunStream, settleStream] at h
        | true => right; rfl
    | cons e rest ih =>
        intro lost err h
        simp only [settleRunStream, settleStream] at h
        rcases he : runStreamHandle e with - | s
        · rw [he] at h
          rcases ih lost err h with ⟨x, hx, hxt⟩ | hl
          · exact Or.inl ⟨x, by simp [hx], hxt⟩
          · exact Or.inr hl
        · rw [he] at h
          simp only [Option.some.injEq] at h
          subst h
          left
          refine ⟨e, by simp, ?_⟩
          simp only [runStreamHandle] at he
          by_cases hc : runStreamEventTypes.contains e.type && e.parses
          · rw [if_pos hc] at he
            by_cases ht : e.type = "complete"
            · rw [if_pos ht] at he
              exact absurd he (by simp)
            · rw [if_neg ht] at he
              by_cases he2 : e.type = "error"
              · exact he2
              · rw [if_neg he2] at he
                exact absurd he (by simp)
          · rw [if_neg hc] at he
            exact absurd he (by simp)

/-- Witness for C6: a run stream that reports an iteration and then a
`complete` event whose payload carries status `fail` resolves with that
payload, and a stream consisting of a lone `verify` event followed by
connection loss rejects only because of the loss. -/
theorem runStream_complete_resolves_error_rejects_witness :
    settleRunStream
      [⟨"iteration_start", true, ⟨none, none, none, none, none⟩⟩,
       ⟨"complete", true, ⟨some "fail", none, none, none, none⟩⟩] false
      = some (Settlement.resolved ⟨some "fail", none, none, none, none⟩) ∧
    ((∃ e ∈ [(⟨"verify", true, ⟨none, none, none, none, none⟩⟩ : SseEvent)],
        e.type = "error") ∨ true = true) := by
  constructor
  · exact runStream_complete_resolves_error_rejects.1
      [⟨"iteration_start", true, ⟨none, none, none, none, none⟩⟩]
      ⟨"complete", true, ⟨some "fail", none, none, none, none⟩⟩ [] false
      (by decide) rfl rfl
  · exact runStream_complete_resolves_error_rejects.2
      [⟨"verify", true, ⟨none, none, none, none, none⟩⟩] true connectionLostError
      (by decide)

/-- C5 counterexample: a batch stream `error` event announcing a
retryable rate limit with a 30 second hint is rejected with `retryable`
forced to `false` and `retryAfter` dropped to `none`, so the typed error
does not carry the retryable flag and retry_after value of the event. -/
theorem batchStream_error_drops_retry_hint :
    settleBatchStream
      [⟨"error", true,
        ⟨none, some "rate limited", some "RATE_LIMIT", some true, some 30⟩⟩] false
      = some (Settlement.rejected
          ⟨"rate limited", "RATE_LIMIT", false, none⟩) ∧
    (some true : Option Bool) ≠ some false ∧
    (some 30 : Option Nat) ≠ none := by
  decide

/-- C5 amended: on the run stream the first `error` event rejects the
promise with a typed error carrying the code, retryable flag and
retry_after of the event (with JavaScript falsy defaults), and no retry
is issued internally; on the batch stream the first `error` event also
rejects immediately with the code of the event, but `retryable` is always
`false` and `retryAfter` always `none`. -/
theorem stream_error_propagation :
    (∀ (pre : List SseEvent) (e : SseEvent) (rest : List SseEvent) (lost : Bool),
      (∀ x ∈ pre, runStreamHandle x = none) → e.type = "error" →
      e.parses = true →
      settleRunStream (pre ++ e :: rest) lost
        = some (Settlement.rejected (runStreamErrorToApiError e.data))) ∧
    (∀ (d : Payload) (b : Bool) (ra : Nat),
      d.retryable = some b → d.retry_after = some ra → ra ≠ 0 →
      (runStreamErrorToApiError d).retryable = b ∧
      (runStreamErrorToApiError d).retryAfter = some ra) ∧
    (∀ (pre : List SseEvent) (e : SseEvent) (rest : List SseEvent) (lost : Bool),
      (∀ x ∈ pre, batchStreamHandle x = none) → e.type = "error" →
      e.parses = true →
      settleBatchStream (pre ++ e :: rest) lost
        = some (Settlement.rejected (batchStreamErrorToApiError e.data))) ∧
    (∀ d : Payload,
      (batchStreamErrorToApiError d).retryable = false ∧
      (batchStreamErrorToApiError d).retryAfter = none) := by
  refine ⟨?_, ?_, ?_, ?_⟩
  · intro pre e rest lost hpre htype hparses
    apply settleStream_append_settled runStreamHandle pre e rest lost hpre
    simp [runStreamHandle, htype, hparses, runStreamEventTypes]
  · intro d b ra hb hra hnz
    constructor
    · simp [runStreamErrorToApiError, hb]
    · simp [runStreamErrorToApiError, jsOrNullNat, hra, hnz]
  · intro pre e rest lost hpre htype hparses
    apply settleStream_append_settled batchStreamHandle pre e rest lost hpre
    simp [batchStreamHandle, htype, hparses, batchStreamEventTypes]
  · intro d
    exact ⟨rfl, rfl⟩

/-- Witness for C5 (amended): a run stream whose only event is a
retryable `RATE_LIMIT` error with a 30 second hint rejects with exactly
that code, flag and hint, and a batch stream error rejects with
`retryable` `false` and no hint. -/
theorem stream_error_propagation_witness :
    settleRunStream
      [⟨"error", true,
        ⟨none, some "rate limited", some "RATE_LIMIT", some true, some 30⟩⟩] false
      = some (Settlement.rejected
          (runStreamErrorToApiError
            ⟨none, some "rate limited", some "RATE_LIMIT", some true, some 30⟩)) ∧
    (runStreamErrorToApiError
        ⟨none, some "rate limited", some "RATE_LIMIT", some true, some 30⟩).retryable
      = true ∧
    (runStreamErrorToApiError
        ⟨none, some "rate limited", some "RATE_LIMIT", some true, some 30⟩).retryAfter
      = some 30 ∧
    (batchStreamErrorToApiError
        ⟨none, some "rate limited", some "RATE_LIMIT", some true, some 30⟩).retryable
      = false := by
  refine ⟨?_, ?_, ?_, ?_⟩
  · exact stream_error_propagation.1 []
      ⟨"error", true,
        ⟨none, some "rate limited", some "RATE_LIMIT", some true, some 30⟩⟩ [] false
      (by decide) rfl rfl
  · exact (stream_error_propagation.2.1
      ⟨none, some "rate limited", some "RATE_LIMIT", some true, some 30⟩ true 30
      rfl rfl (by decide)).1
  · exact (stream_error_propagation.2.1
      ⟨none, some "rate limited", some "RATE_LIMIT", some true, some 30⟩ true 30
      rfl rfl (by decide)).2
  · exact (stream_error_propagation.2.2.2
      ⟨none, some "rate limited", some "RATE_LIMIT", some true, some 30⟩).1

/-! ## The `max_iterations` parameter (claim C7)

`runStream` builds the query string with
`max_iterations: (params.max_iterations || 5).toString()`
(`api.js` line 193): a missing value and the falsy value `0` both become
the default `5`; every other value is forwarded unchanged.  The loop
controller itself is not in the shipped sources; its rejection of values
below 1 is modelled from the spec. -/

/-- The effective `max_iterations` value the client puts into the query
string, from `params.max_iterations || 5` in `api.js`. -/
def effectiveMaxIterations (maxIterations : Option Int) : Int :=
  match maxIterations with
  | none => 5
  | some n => if n = 0 then 5 else n

/-- Modelled from the spec: the loop controller (absent from the shipped
sources) rejects `max_iterations` values below 1 before running. -/
def validateMaxIterations (n : Int) : Except String Int :=
  if n < 1 then Except.error "max_iterations must be at least 1"
  else Except.ok n

/-- C7 counterexample: the configured value `0` is below 1 but is not
rejected — the client coerces it to the default `5` and the run executes
with ceiling 5. -/
theorem maxIterations_zero_not_rejected :
    (0 : Int) < 1 ∧
    effectiveMaxIterations (some 0) = 5 ∧
    validateMaxIterations (effectiveMaxIterations (some 0)) = Except.ok 5 := by
  refine ⟨by norm_num, rfl, ?_⟩
  norm_num [validateMaxIterations, effectiveMaxIterations]

/-- C7 amended: `max_iterations` defaults to 5 when unspecified; a
configured value of `0` is coerced by the client to the default 5 and
executed rather than rejected; every other value is forwarded unchanged,
and negative values are rejected by the validation the spec requires of
the controller. -/
theorem maxIterations_default_and_validation :
    effectiveMaxIterations none = 5 ∧
    effectiveMaxIterations (some 0) = 5 ∧
    (∀ n : Int, n ≠ 0 → effectiveMaxIterations (some n) = n) ∧
    (∀ n : Int, n < 0 →
      validateMaxIterations (effectiveMaxIterations (some n))
        = Except.error "max_iterations must be at least 1") := by
  refine ⟨rfl, rfl, ?_, ?_⟩
  · intro n hn
    simp [effectiveMaxIterations, hn]
  · intro n hn
    have hnz : n ≠ 0 := by omega
    have h1 : n < 1 := by omega
    simp [effectiveMaxIterations, hnz, validateMaxIterations, h1]

/-- Witness for C7 (amended): the value 7 is forwarded unchanged and the
value -2 is rejected by the modelled validation. -/
theorem maxIterations_default_and_validation_witness :
    effectiveMaxIterations (some 7) = 7 ∧
    validateMaxIterations (effectiveMaxIterations (some (-2)))
      = Except.error "max_iterations must be at least 1" := by
  constructor
  · exact maxIterations_default_and_validation.2.2.1 7 (by decide)
  · exact maxIterations_default_and_validation.2.2.2 (-2) (by decide)

/-! ## History storage (claim C9)

`storage.getHistory` (`api.js` lines 698-702) reads every entry of the
history store and sorts with the comparator
`(a, b) => b.timestamp - a.timestamp`, ordering entries by descending
timestamp.  The comparator is embedded as the relation that puts `a`
before `b` exactly when the timestamp of `b` is at most the timestamp of
`a`. -/

structure HistoryEntry where
  id : Nat
  timestamp : Int
  payload : String
deriving DecidableEq

/-- The order the comparator `(a, b) => b.timestamp - a.timestamp`
establishes: `a` may appear before `b` when the timestamp of `b` does
not exceed the timestamp of `a`. -/
def newerFirst (a b : HistoryEntry) : Prop :=
  b.timestamp ≤ a.timestamp

instance : DecidableRel newerFirst :=
  fun a b => decidable_of_iff (b.timestamp ≤ a.timestamp) Iff.rfl

instance : IsTotal HistoryEntry newerFirst :=
  ⟨fun a b => le_total b.timestamp a.timestamp⟩

instance : IsTrans HistoryEntry newerFirst :=
  ⟨fun _ _ _ h1 h2 => le_trans h2 h1⟩

/-- `storage.getHistory`: all stored entries, sorted by timestamp
descending (newest first). -/
def getHistory (entries : List HistoryEntry) : List HistoryEntry :=
  List.insertionSort newerFirst entries

/-- C9: `getHistory` returns all stored entries (a permutation of the
store contents) sorted by timestamp in non-increasing order. -/
theorem getHistory_sorted_desc :
    ∀ entries : List HistoryEntry,
      List.Perm (getHistory entries) entries ∧
      List.Pairwise (fun a b => b.timestamp ≤ a.timestamp) (getHistory entries) := by
  intro entries
  constructor
  · exact List.perm_insertionSort newerFirst entries
  · exact List.sorted_insertionSort newerFirst entries

/-! ## The request helper (claim C10)

`request` (`api.js` lines 29-84) performs a fetch, parses the body as
JSON, and classifies failures.  The outcome of the transport is modelled
explicitly: the fetch itself can throw, `response.json()` can throw, or a
response arrives with an `ok` flag, an error `detail` field and a body.
A JavaScript quirk matters here: `typeof null === 'object'`, so a `null`
detail takes the structured branch, where reading `.message` throws a
TypeError that the surrounding catch then wraps as a network error (the
message text of that TypeError is engine specific and is modelled by a
fixed placeholder string). -/

inductive Detail where
  | absent
  | nullv
  | str (s : String)
  | obj (message : Option String) (code : Option String)
        (retryable : Option Bool) (retry_after : Option Nat)
deriving DecidableEq

inductive FetchOutcome (α : Type) where
  | fetchThrows (msg : String)
  | jsonThrows (msg : String)
  | response (ok : Bool) (detail : Detail) (body : α)
deriving DecidableEq

/-- The result of `request`: either the parsed body, or an ApiError —
every failure path of the source ends in `throw new ApiError(...)`. -/
def request {α : Type} : FetchOutcome α → Except ApiError α
  | FetchOutcome.fetchThrows msg =>
      Except.error ⟨jsOrStr (some msg) "Network error", "NETWORK_ERROR", true, none⟩
  | FetchOutcome.jsonThrows msg =>
      Except.error ⟨jsOrStr (some msg) "Network error", "NETWORK_ERROR", true, none⟩
  | FetchOutcome.response ok detail body =>
      if ok then Except.ok body
      else
        match detail with
        | Detail.obj m c r ra =>
            Except.error ⟨jsOrStr m "An error occurred", jsOrStr c "UNKNOWN_ERROR",
              r.getD false, jsOrNullNat ra⟩
        | Detail.nullv =>
            Except.error ⟨"TypeError: cannot read message of null",
              "NETWORK_ERROR", true, none⟩
        | Detail.str s =>
            Except.error ⟨jsOrStr (some s) "An error occurred", "UNKNOWN_ERROR",
              false, none⟩
        | Detail.absent =>
            Except.error ⟨"An error occurred", "UNKNOWN_ERROR", false, none⟩

/-- C10 counterexample: a non-ok response whose error detail is `null`
is not reported as a non-retryable `UNKNOWN_ERROR` — it falls through the
generic catch as a retryable `NETWORK_ERROR`. -/
theorem request_null_detail_escapes_classification :
    request (FetchOutcome.response false Detail.nullv (0 : Nat))
      = Except.error ⟨"TypeError: cannot read message of null",
          "NETWORK_ERROR", true, none⟩ ∧
    ("NETWORK_ERROR" : String) ≠ "UNKNOWN_ERROR" ∧
    (true : Bool) ≠ false := by
  refine ⟨rfl, by decide, by decide⟩

/-- C10 amended: every failure of `request` is an ApiError, and success
arises only from an ok response; a non-ok response with an object detail
carries the code, retryable flag and retry_after of the detail (with
falsy defaults); a string or missing detail yields a non-retryable
`UNKNOWN_ERROR`; a `null` detail is wrapped by the generic catch as a
retryable `NETWORK_ERROR`; a fetch or JSON-parse failure is wrapped as a
retryable `NETWORK_ERROR`. -/
theorem request_error_classification :
    (∀ (o : FetchOutcome Nat) (a : Nat),
      request o = Except.ok a → ∃ d, o = FetchOutcome.response true d a) ∧
    (∀ (m : Option String) (c : String) (b : Bool) (ra : Option Nat) (body : Nat),
      c ≠ "" →
      request (FetchOutcome.response false (Detail.obj m (some c) (some b) ra) body)
        = Except.error ⟨jsOrStr m "An error occurred", c, b, jsOrNullNat ra⟩) ∧
    (∀ (s : String) (body : Nat),
      (request (FetchOutcome.response false (Detail.str s) body)
          = Except.error ⟨jsOrStr (some s) "An error occurred", "UNKNOWN_ERROR",
              false, none⟩) ∧
      (request (FetchOutcome.response false Detail.absent body)
          = Except.error ⟨"An error occurred", "UNKNOWN_ERROR", false, none⟩)) ∧
    (∀ (body : Nat),
      request (FetchOutcome.response false Detail.nullv body)
        = Except.error ⟨"TypeError: cannot read message of null",
            "NETWORK_ERROR", true, none⟩) ∧
    (∀ msg : String,
      (request (α := Nat) (FetchOutcome.fetchThrows msg)
          = Except.error ⟨jsOrStr (some msg) "Network error", "NETWORK_ERROR",
              true, none⟩) ∧
      (request (α := Nat) (FetchOutcome.jsonThrows msg)
          = Except.error ⟨jsOrStr (some msg) "Network error", "NETWORK_ERROR",
              true, none⟩)) := by
  refine ⟨?_, ?_, ?_, ?_, ?_⟩
  · intro o a h
    cases o with
    | fetchThrows msg => exact absurd h (by simp [request])
    | jsonThrows msg => exact absurd h (by simp [request])
    | response ok detail body =>
        cases ok with
        | true =>
            refine ⟨detail, ?_⟩
            simp only [request, if_pos] at h
            simp [Except.ok.injEq] at h
            rw [h]
        | false =>
            exfalso
            cases detail <;> simp [request] at h
  · intro m c b ra body hc
    simp [request, jsOrStr, hc]
  · intro s body
    exact ⟨rfl, rfl⟩
  · intro body
    rfl
  · intro msg
    exact ⟨rfl, rfl⟩

/-- Witness for C10 (amended): a structured 429 detail is carried through
with its code, flag and hint; an ok response yields its body. -/
theorem request_error_classification_witness :
    request (FetchOutcome.response false
        (Detail.obj (some "slow down") (some "RATE_LIMIT") (some true) (some 30)) 7)
      = Except.error ⟨"slow down", "RATE_LIMIT", true, some 30⟩ ∧
    (∃ d, FetchOutcome.response true Detail.absent 7
        = FetchOutcome.response (α := Nat) true d 7) := by
  constructor
  · have h := request_error_classification.2.1
      (some "slow down") "RATE_LIMIT" true (some 30) 7 (by decide)
    simpa [jsOrStr, jsOrNullNat] using h
  · exact request_error_classification.1
      (FetchOutcome.response true Detail.absent 7) 7 rfl

end OntoRalph
